import Mathlib

/-!
Verification of `tools/tiling_pyhist.py`: a script that tiles histology
images by invoking PyHIST through Podman and aggregates the produced tile
PNGs into one output ZIP archive.

The development shallowly embeds the script.  Filesystem observations,
the external tool's exit behaviour, and the names returned by
`tempfile.mkdtemp` are supplied by an environment record; the script's
side effects (log events, podman invocations, temp-dir creations and
`shutil.rmtree` removals) are collected in an explicit effect record.
Path arithmetic (`os.path.splitext`, `basename`, `join`, `normpath`,
`abspath`) is modelled after CPython's `posixpath`.
-/

namespace Tiling

/-! ### posixpath model -/

/-- Index of the last occurrence of `c` in `l`, if any
(CPython's `str.rfind` restricted to a single character). -/
def lastIndexOfAux (c : Char) : List Char → Nat → Option Nat
  | [], _ => none
  | ch :: rest, i =>
    match lastIndexOfAux c rest (i + 1) with
    | some j => some j
    | none => if ch = c then some i else none

def lastIndexOf (c : Char) (l : List Char) : Option Nat :=
  lastIndexOfAux c l 0

/-- Model of `os.path.splitext` on a string without directory separators: split at the
last dot, unless every character before that dot is itself a dot (so that
`.bashrc` and `..png`-style names keep an empty extension). -/
def splitextBase (b : List Char) : List Char × List Char :=
  match lastIndexOf '.' b with
  | some d => if (b.take d).any (fun ch => ch ≠ '.') then (b.take d, b.drop d) else (b, [])
  | none => (b, [])

/-- Start index of the basename: one past the last `/`, or `0`. -/
def baseStart (p : List Char) : Nat :=
  match lastIndexOf '/' p with
  | some i => i + 1
  | none => 0

/-- Model of `posixpath.splitext`.  CPython splits at the last dot provided it lies
after the last separator and some non-dot character of the basename precedes
it; this is exactly `splitextBase` applied to the basename, with the
directory part carried along unchanged. -/
def splitext (s : String) : String × String :=
  let p := s.toList
  let i := baseStart p
  (⟨p.take i ++ (splitextBase (p.drop i)).1⟩, ⟨(splitextBase (p.drop i)).2⟩)

/-- Model of `posixpath.basename`: everything after the last `/`. -/
def basename (s : String) : String :=
  ⟨s.toList.drop (baseStart s.toList)⟩

/-- Model of `posixpath.dirname`: the part before the last `/`, with trailing slashes
stripped unless the result consists only of slashes. -/
def dirname (s : String) : String :=
  let p := s.toList
  let head := p.take (baseStart p)
  if head ≠ [] ∧ head.any (fun ch => ch ≠ '/') then
    ⟨head.reverse.dropWhile (fun ch => ch = '/') |>.reverse⟩
  else ⟨head⟩

/-- Model of `posixpath.join` for two components. -/
def pathJoin (a b : String) : String :=
  if b.toList.head? = some '/' then b
  else if a = "" ∨ a.toList.getLast? = some '/' then a ++ b
  else a ++ "/" ++ b

/-- Model of CPython's `str.split('/')`, keeping empty pieces. -/
def splitOnSlashAux : List Char → List Char → List (List Char)
  | [], cur => [cur.reverse]
  | c :: rest, cur =>
    if c = '/' then cur.reverse :: splitOnSlashAux rest []
    else splitOnSlashAux rest (c :: cur)

def splitOnSlash (l : List Char) : List (List Char) :=
  splitOnSlashAux l []

/-- Join with `'/'` on character lists, as CPython's `'/'.join`. -/
def joinSlash : List (List Char) → List Char
  | [] => []
  | [x] => x
  | x :: xs => x ++ '/' :: joinSlash xs

/-- Join with a blank on strings, as `' '.join` (used for the command-line log record). -/
def joinSpace : List String → String
  | [] => ""
  | [x] => x
  | x :: xs => x ++ " " ++ joinSpace xs

/-- Model of `str.lower` (the script only lower-cases ASCII extensions). -/
def lowerStr (s : String) : String :=
  ⟨s.toList.map Char.toLower⟩

/-- Model of `str.endswith`. -/
def endsWithChars (s suf : List Char) : Bool :=
  suf.length ≤ s.length ∧ s.drop (s.length - suf.length) = suf

def endsWithStr (s suf : String) : Bool :=
  endsWithChars s.toList suf.toList

/-- Component loop of `posixpath.normpath`. -/
def normComps (rooted : Bool) : List (List Char) → List (List Char) → List (List Char)
  | [], acc => acc.reverse
  | c :: rest, acc =>
    if c = [] ∨ c = ['.'] then normComps rooted rest acc
    else if c ≠ ['.', '.'] then normComps rooted rest (c :: acc)
    else
      match acc with
      | [] => if rooted then normComps rooted rest [] else normComps rooted rest [['.', '.']]
      | a :: tl =>
        if a = ['.', '.'] then normComps rooted rest (['.', '.'] :: (a :: tl))
        else normComps rooted rest tl

/-- Model of `posixpath.normpath`. -/
def normpath (p : String) : String :=
  if p = "" then "." else
  let cs := p.toList
  let initSlashes : Nat :=
    if cs.head? = some '/' then
      if cs.take 2 = ['/', '/'] ∧ cs.take 3 ≠ ['/', '/', '/'] then 2 else 1
    else 0
  let comps := normComps (initSlashes > 0) (splitOnSlash cs) []
  let out := List.replicate initSlashes '/' ++ joinSlash comps
  if out = [] then "." else ⟨out⟩

/-- Model of `posixpath.abspath` relative to an explicit working directory. -/
def abspath (cwd p : String) : String :=
  if p.toList.head? = some '/' then normpath p else normpath (pathJoin cwd p)

/-! ### Environment, effects, errors -/

/-- The allow-list `VALID_EXTENSIONS` of the script. -/
def VALID_EXTENSIONS : List String := [".png", ".jpg", ".jpeg", ".tif", ".tiff", ".svs"]

/-- Severity of a log record.  The script configures `level=logging.INFO`, so
`logging.debug` calls never reach the sink and are not modelled. -/
inductive LogLevel
  | info
  | warning
  | error
  deriving DecidableEq, Repr

structure LogEvent where
  level : LogLevel
  msg : String
  deriving DecidableEq, Repr

/-- Python exception classes raised by the script. -/
inductive PyErr
  | valueError (msg : String)
  | runtimeError (msg : String)
  | osError (msg : String)
  deriving DecidableEq, Repr

/-- Side effects of one run, in program order: log events, executed podman
command lines, directories created by `tempfile.mkdtemp`, and directories
removed by `shutil.rmtree`. -/
structure Effects where
  log : List LogEvent
  podmanCmds : List (List String)
  mkdtemps : List String
  rmtrees : List String
  deriving DecidableEq, Repr

def Effects.nil : Effects := ⟨[], [], [], []⟩

def Effects.append (a b : Effects) : Effects :=
  ⟨a.log ++ b.log, a.podmanCmds ++ b.podmanCmds,
   a.mkdtemps ++ b.mkdtemps, a.rmtrees ++ b.rmtrees⟩

/-- Filesystem as observed by the script at its check points (`os.path.exists`,
`os.listdir`, `os.walk`; `os.walk` is the list of `(root, files)` pairs). -/
structure FS where
  dirExists : String → Bool
  listdir : String → List String
  walk : String → List (String × List String)

/-- Ambient behaviour of everything outside the script: the working
directory at start, the filesystem, the exit behaviour of the PyHIST
container for each (absolute) image path — `none` is exit 0 and `some s`
is a non-zero exit with stderr `s` — the fresh directory names handed out
by `tempfile.mkdtemp`, the member list of the input ZIP (`none` models
`zipfile.BadZipFile`), the result of `podman pull`, and whether opening the
output archive for writing succeeds. -/
structure Env where
  cwd : String
  fs : FS
  tool : String → Option String
  processDir : String
  extractDir : String
  zipNamelist : Option (List String)
  pullErr : Option String
  archiveWriteOk : Bool

/-! ### run_pyhist_podman -/

/-- The exact command list built by `run_pyhist_podman`, given the working
directory at call time (the script reads `os.getcwd()`). -/
def pyhistCmd (cwd image_path : String) : List String :=
  let ap := abspath cwd image_path
  let image_name := (splitext (basename ap)).1
  let ext := (splitext ap).2
  let container_image_path := "/pyhist/images/" ++ image_name ++ ext
  ["podman", "run", "--rm",
   "-v", cwd ++ ":/pyhist/images",
   "mmunozag/pyhist",
   "--patch-size", "512",
   "--content-threshold", "0.4",
   "--output-downsample", "4",
   "--borders", "0000",
   "--corners", "1010",
   "--percentage-bc", "1",
   "--k-const", "1000",
   "--minimum_segmentsize", "1000",
   "--save-patches",
   "--save-tilecrossed-image",
   "--info", "verbose",
   "--output", "images/",
   container_image_path]

/-- Model of `run_pyhist_podman`: logs the command, runs it, and on a non-zero exit
logs an error and raises `RuntimeError` carrying the captured stderr. -/
def run_pyhist_podman (tool : String → Option String) (cwd image_path : String) :
    Except PyErr Unit × Effects :=
  let ap := abspath cwd image_path
  let cmd := pyhistCmd cwd image_path
  let runLog : LogEvent := ⟨.info, "Running Podman command: " ++ joinSpace cmd⟩
  match tool ap with
  | none =>
    (Except.ok (),
     ⟨[runLog, ⟨.info, "PyHIST Podman executed successfully for " ++ ap⟩], [cmd], [], []⟩)
  | some stderr =>
    (Except.error (.runtimeError ("PyHIST Podman processing failed: " ++ stderr)),
     ⟨[runLog, ⟨.error, "PyHIST Podman failed for " ++ ap ++ ": " ++ stderr⟩], [cmd], [], []⟩)

/-- Model of `pull_podman_image`. -/
def pull_podman_image (pullErr : Option String) : Except PyErr Unit × Effects :=
  match pullErr with
  | none => (Except.ok (), ⟨[⟨.info, "Pulled Podman image: mmunozag/pyhist"⟩], [], [], []⟩)
  | some s =>
    (Except.error (.runtimeError ("Failed to pull mmunozag/pyhist: " ++ s)),
     ⟨[⟨.error, "Failed to pull Podman image: " ++ s⟩], [], [], []⟩)

/-- Model of `extract_zip`: makes a fresh temp dir, then opens the ZIP.  On success it
returns the temp dir and `namelist` joined under it; a corrupt archive raises
`RuntimeError "Invalid ZIP file."` and leaves the fresh temp dir behind. -/
def extract_zip (env : Env) : Except PyErr (String × List String) × Effects :=
  let temp_dir := env.extractDir
  match env.zipNamelist with
  | some names =>
    (Except.ok (temp_dir, names.map fun f => pathJoin temp_dir f),
     ⟨[⟨.info, "ZIP file extracted to: " ++ temp_dir⟩], [], [temp_dir], []⟩)
  | none =>
    (Except.error (.runtimeError "Invalid ZIP file."), ⟨[], [], [temp_dir], []⟩)

/-! ### process_files -/

/-- Python `dict` insertion on an association list: overwriting an existing
key keeps its position, a new key goes to the end. -/
def dictInsert (m : List (String × String)) (k v : String) : List (String × String) :=
  if m.any fun p => p.1 = k then
    m.map fun p => if p.1 = k then (k, v) else p
  else m ++ [(k, v)]

/-- Whether the script accepts a candidate file: its `os.path.splitext`
extension, lower-cased, lies in `VALID_EXTENSIONS`. -/
def accepts (p : String) : Bool :=
  lowerStr (splitext p).2 ∈ VALID_EXTENSIONS

/-- The deterministic directory the script searches for tiles:
`os.path.join(root, image_name, image_name + "_tiles")`. -/
def tileDirFor (root image_name : String) : String :=
  pathJoin (pathJoin root image_name) (image_name ++ "_tiles")

/-- The tile-discovery block of `process_files` (identical in the single-image
and the ZIP branch): look for `<root>/<name>/<name>_tiles`, keep the image in
the tile map when a PNG is found, otherwise log a warning and move on.  The
`Found ...` record elides CPython's rendering of the file list. -/
def tileCheck (fs : FS) (root image_name : String) (m : List (String × String)) :
    List (String × String) × Effects :=
  let tile_dir := tileDirFor root image_name
  let checkLog : LogEvent := ⟨.info, "Checking for tiles in: " ++ tile_dir⟩
  if fs.dirExists tile_dir then
    let tile_files := (fs.listdir tile_dir).filter fun f => endsWithStr f ".png"
    let foundLog : LogEvent :=
      ⟨.info, "Found " ++ toString tile_files.length ++ " PNG files in " ++ tile_dir⟩
    if tile_files.isEmpty then
      (m, ⟨[checkLog, foundLog, ⟨.warning, "No PNG tiles found in " ++ tile_dir⟩], [], [], []⟩)
    else
      (dictInsert m image_name tile_dir, ⟨[checkLog, foundLog], [], [], []⟩)
  else
    (m, ⟨[checkLog, ⟨.warning, "Tile directory " ++ tile_dir ++ " does not exist"⟩], [], [], []⟩)

/-- The `for file_path in file_list` loop of the ZIP branch of
`process_files`.  The working directory is `temp_dir` (the script has done
`os.chdir(temp_dir)`).  Note there is no per-file exception handler: a
failing tool invocation propagates and abandons the rest of the list. -/
def processZipList (env : Env) (temp_dir : String) :
    List String → List (String × String) → Except PyErr (List (String × String)) × Effects
  | [], m => (Except.ok m, Effects.nil)
  | f :: rest, m =>
    if accepts f then
      match run_pyhist_podman env.tool temp_dir f with
      | (Except.ok _, e1) =>
        let (m2, e2) := tileCheck env.fs temp_dir (splitext (basename f)).1 m
        let (r, e3) := processZipList env temp_dir rest m2
        (r, e1.append (e2.append e3))
      | (Except.error err, e1) => (Except.error err, e1)
    else
      let (r, e2) := processZipList env temp_dir rest m
      (r, Effects.append ⟨[⟨.info, "Skipping non-image file: " ++ f⟩], [], [], []⟩ e2)

/-- Model of `process_files`: creates a scratch temp dir, then dispatches on the
input's lower-cased extension — an accepted image is processed in place
against `os.getcwd()`, a `.zip` is extracted (rebinding `temp_dir` to the
extraction dir) and processed per entry, anything else raises `ValueError`.
The `finally` clause removes the current value of `temp_dir` only when the
extension is `.zip`. -/
def process_files (env : Env) (input_path : String) :
    Except PyErr (String × List (String × String)) × Effects :=
  let e0 : Effects := ⟨[], [], [env.processDir], []⟩
  let ext := lowerStr (splitext input_path).2
  let (result, temp_dir, e1) :
      Except PyErr (String × List (String × String)) × String × Effects :=
    if ext ∈ VALID_EXTENSIONS then
      match run_pyhist_podman env.tool env.cwd input_path with
      | (Except.ok _, eb) =>
        let (m, ec) := tileCheck env.fs env.cwd (splitext (basename input_path)).1 []
        (Except.ok (env.processDir, m), env.processDir, eb.append ec)
      | (Except.error err, eb) => (Except.error err, env.processDir, eb)
    else if ext = ".zip" then
      match extract_zip env with
      | (Except.ok (tdir, file_list), eb) =>
        match processZipList env tdir file_list [] with
        | (Except.ok m, ec) => (Except.ok (tdir, m), tdir, eb.append ec)
        | (Except.error err, ec) => (Except.error err, tdir, eb.append ec)
      | (Except.error err, eb) => (Except.error err, env.processDir, eb)
    else
      (Except.error (.valueError ("Unsupported input file type: " ++ ext ++
        ". Expected .zip or a valid image extension.")), env.processDir, Effects.nil)
  let eFin : Effects := if ext = ".zip" then ⟨[], [], [], [temp_dir]⟩ else Effects.nil
  (result, e0.append (e1.append eFin))

/-! ### create_output_zip and main -/

/-- Opening mode of `zipfile.ZipFile`: `'w'` truncates, `'a'` keeps the
previous members. -/
inductive ZipMode
  | write
  | append
  deriving DecidableEq

def zipOpenEntries : ZipMode → List (String × String) → List (String × String)
  | .write, _ => []
  | .append, prev => prev

/-- The entries `create_output_zip` emits for one image: every `.png` file
under `os.walk(tile_dir)`, archived as
`os.path.join(image_name, os.path.basename(file_path))`, paired with its
source path. -/
def imageEntries (walk : String → List (String × List String))
    (image_name tile_dir : String) : List (String × String) :=
  (walk tile_dir).flatMap fun rf =>
    (rf.2.filter fun f => endsWithStr f ".png").map fun file =>
      let file_path := pathJoin rf.1 file
      (pathJoin image_name (basename file_path), file_path)

/-- Model of `create_output_zip`: opens `output_zip_path` with mode `'w'` and writes
the per-image entries in tile-map order; the result is the archive's member
list in write order. -/
def create_output_zip (walk : String → List (String × List String))
    (image_tile_map : List (String × String))
    (prevArchive : List (String × String)) : List (String × String) :=
  zipOpenEntries .write prevArchive ++
    image_tile_map.flatMap fun kv => imageEntries walk kv.1 kv.2

/-- Model of `main`: pull the image, run `process_files`, then inside `try` write the
archive and — for a single accepted image — delete `<cwd>/<image_name>`;
the `finally` clause removes `temp_dir` for single accepted images.  An
archive that cannot be opened for writing is modelled as `OSError`. -/
def main (env : Env) (input_path : String)
    (prevArchive : List (String × String)) :
    Except PyErr (List (String × String)) × Effects :=
  match pull_podman_image env.pullErr with
  | (Except.error err, e0) => (Except.error err, e0)
  | (Except.ok _, e0) =>
    match process_files env input_path with
    | (Except.error err, e1) => (Except.error err, e0.append e1)
    | (Except.ok (temp_dir, m), e1) =>
      let single := lowerStr (splitext input_path).2 ∈ VALID_EXTENSIONS
      let eFin : Effects :=
        ⟨[⟨.info, "Temporary directory cleaned up: " ++ temp_dir⟩], [],
         [], if single then [temp_dir] else []⟩
      if env.archiveWriteOk then
        let archive := create_output_zip env.fs.walk m prevArchive
        let eZip : Effects := ⟨[⟨.info, "Output ZIP created."⟩], [], [], []⟩
        let eDel : Effects :=
          if single then
            ⟨[], [], [], [pathJoin env.cwd (splitext (basename input_path)).1]⟩
          else Effects.nil
        (Except.ok archive, e0.append (e1.append (eZip.append (eDel.append eFin))))
      else
        (Except.error (.osError "cannot open output archive for writing"),
         e0.append (e1.append eFin))

/-! ### The specification's claimed entry-naming rule

Modelled from the spec (no corresponding code exists in
`create_output_zip`, which archives tiles under their original basename):
"entries are namespaced as `<logical_name>/<logical_name>_<tile_index>.png`,
where `tile_index` is the last run of digits found in the source tile's
filename, or a four-zero sentinel if none found". -/

/-- Modelled from the spec: the last maximal run of digits of a string. -/
def lastDigitRunAux : List Char → List Char → List Char → List Char
  | [], cur, best => if cur.isEmpty then best else cur
  | c :: rest, cur, best =>
    if c.isDigit then lastDigitRunAux rest (cur ++ [c]) best
    else lastDigitRunAux rest [] (if cur.isEmpty then best else cur)

def lastDigitRun (s : String) : String :=
  ⟨lastDigitRunAux s.toList [] []⟩

/-- Modelled from the spec: the tile index parsed from a tile filename —
its last run of digits, or the sentinel `0000` when it has no digits. -/
def specTileIndex (tile_filename : String) : String :=
  let r := lastDigitRun tile_filename
  if r = "" then "0000" else r

/-- Modelled from the spec: the archive path the specification claims for a
tile, `<logical_name>/<logical_name>_<tile_index>.png`. -/
def specArcname (logical_name tile_filename : String) : String :=
  logical_name ++ "/" ++ logical_name ++ "_" ++ specTileIndex tile_filename ++ ".png"

/-! ### Serialization of archive writes: definitions -/

/-- The write sequence into the output archive, each write tagged with the
image task it belongs to. -/
def archiveWriteTrace (walk : String → List (String × List String))
    (m : List (String × String)) : List (String × (String × String)) :=
  m.flatMap fun kv => (imageEntries walk kv.1 kv.2).map fun e => (kv.1, e)

/-- A tagged event sequence is serialized when the events of any one tag form
a contiguous block: no event of another tag lies between two events of the
same tag. -/
def SerializedWrites {α : Type} (tr : List (String × α)) : Prop :=
  ∀ (i j k : Nat) (a b c : String × α), i < j → j < k →
    tr[i]? = some a → tr[j]? = some b → tr[k]? = some c →
    a.1 = c.1 → b.1 = a.1

/-! ### Concrete environments used as witnesses and counterexamples -/

/-- A small filesystem: after the tool runs, image `a` of the bundle has one
tile directory with one PNG, and single image `img` (processed from `/w`)
has a tile directory whose only PNG has no digits in its name. -/
def fsW : FS where
  dirExists := fun d => d = "/tz/a/a_tiles" ∨ d = "/w/img/img_tiles"
  listdir := fun d =>
    if d = "/tz/a/a_tiles" then ["a_0001.png", "x.txt"]
    else if d = "/w/img/img_tiles" then ["tileX.png"]
    else []
  walk := fun d =>
    if d = "/tz/a/a_tiles" then [("/tz/a/a_tiles", ["a_0001.png", "x.txt"])]
    else if d = "/w/img/img_tiles" then [("/w/img/img_tiles", ["tileX.png"])]
    else []

/-- A run in which everything succeeds: the input bundle holds one valid
image `a.png` and one non-image `notes.txt`. -/
def envW : Env where
  cwd := "/w"
  fs := fsW
  tool := fun _ => none
  processDir := "/tmp/process_w"
  extractDir := "/tz"
  zipNamelist := some ["a.png", "notes.txt"]
  pullErr := none
  archiveWriteOk := true

/-- A bundle of two valid images in which the tool fails on the first. -/
def envC2 : Env :=
  { envW with
    zipNamelist := some ["a.png", "b.png"]
    tool := fun p => if p = "/tz/a.png" then some "boom" else none }

/-- An environment whose input ZIP is corrupt. -/
def envBad : Env := { envW with zipNamelist := none }

/-- An environment for single-image runs (the ZIP payload is irrelevant). -/
def envS : Env := envW

/-- Single-image environment in which opening the output archive fails. -/
def envSFail : Env := { envW with archiveWriteOk := false }

/-- Tile map and walk used for the aggregation claims: two images with
distinct names. -/
def walkAgg : String → List (String × List String) := fun d =>
  if d = "/o/a_tiles" then [("/o/a_tiles", ["slide_001.png", "readme.md"])]
  else if d = "/o/b_tiles" then [("/o/b_tiles", ["tileX.png", "slide_001.png"])]
  else []

def mapAgg : List (String × String) := [("slideA", "/o/a_tiles"), ("slideB", "/o/b_tiles")]

/-! ### Helper lemmas: splitext, basename, join -/

theorem splitextBase_append (b : List Char) :
    (splitextBase b).1 ++ (splitextBase b).2 = b := by
  unfold splitextBase
  split
  · split
    · simp
    · simp
  · simp

theorem lastIndexOfAux_shift (c : Char) (l : List Char) (i : Nat) :
    lastIndexOfAux c l i = (lastIndexOf c l).map (· + i) := by
  induction l generalizing i with
  | nil => rfl
  | cons ch rest ih =>
    show (match lastIndexOfAux c rest (i + 1) with
          | some j => some j
          | none => if ch = c then some i else none) =
        Option.map (· + i)
          (match lastIndexOfAux c rest (0 + 1) with
           | some j => some j
           | none => if ch = c then some 0 else none)
    rw [ih (i + 1), ih (0 + 1)]
    cases lastIndexOf c rest with
    | some j =>
      show some (j + (i + 1)) = some (j + (0 + 1) + i)
      congr 1
      omega
    | none =>
      show (if ch = c then some i else none) =
        Option.map (· + i) (if ch = c then some 0 else none)
      by_cases hc : ch = c
      · simp [hc]
      · simp [hc]

theorem lastIndexOf_cons (c ch : Char) (rest : List Char) :
    lastIndexOf c (ch :: rest) =
      match lastIndexOf c rest with
      | some j => some (j + 1)
      | none => if ch = c then some 0 else none := by
  show (match lastIndexOfAux c rest (0 + 1) with
        | some j => some j
        | none => if ch = c then some 0 else none) = _
  rw [lastIndexOfAux_shift c rest (0 + 1)]
  cases lastIndexOf c rest with
  | some j => rfl
  | none => rfl

theorem lastIndexOf_eq_none_iff (c : Char) (l : List Char) :
    lastIndexOf c l = none ↔ c ∉ l := by
  induction l with
  | nil => simp [lastIndexOf, lastIndexOfAux]
  | cons ch rest ih =>
    rw [lastIndexOf_cons]
    cases h : lastIndexOf c rest with
    | some j =>
      have hc : c ∈ rest := by
        by_contra hc
        rw [ih.mpr hc] at h
        exact Option.noConfusion h
      simp [List.mem_cons, hc]
    | none =>
      have hrest : c ∉ rest := ih.mp h
      by_cases hc : ch = c
      · simp [hc]
      · simp only [List.mem_cons]
        constructor
        · intro hn hor
          rcases hor with hor | hor
          · exact hc hor.symm
          · exact hrest hor
        · intro hn
          simp [hc]

theorem not_mem_drop_after (c : Char) (l : List Char) (i : Nat)
    (h : lastIndexOf c l = some i) : c ∉ l.drop (i + 1) := by
  induction l generalizing i with
  | nil => simp [lastIndexOf, lastIndexOfAux] at h
  | cons ch rest ih =>
    rw [lastIndexOf_cons] at h
    cases hr : lastIndexOf c rest with
    | some j =>
      rw [hr] at h
      simp only [Option.some.injEq] at h
      subst h
      simpa using ih j hr
    | none =>
      rw [hr] at h
      by_cases hc : ch = c
      · subst hc
        rw [if_pos rfl] at h
        simp only [Option.some.injEq] at h
        subst h
        simpa using (lastIndexOf_eq_none_iff ch rest).mp hr
      · simp [hc] at h

theorem basename_no_slash (s : String) : '/' ∉ (basename s).toList := by
  show '/' ∉ s.toList.drop (baseStart s.toList)
  unfold baseStart
  cases h : lastIndexOf '/' s.toList with
  | some i => exact not_mem_drop_after '/' s.toList i h
  | none =>
    intro hmem
    exact (lastIndexOf_eq_none_iff '/' s.toList).mp h (List.mem_of_mem_drop hmem)

theorem baseStart_eq_zero (l : List Char) (h : '/' ∉ l) : baseStart l = 0 := by
  unfold baseStart
  rw [(lastIndexOf_eq_none_iff '/' l).mpr h]

theorem splitext_basename_ext (s : String) :
    (splitext (basename s)).2 = (splitext s).2 := by
  show (⟨(splitextBase ((basename s).toList.drop (baseStart (basename s).toList))).2⟩ : String) =
    ⟨(splitextBase (s.toList.drop (baseStart s.toList))).2⟩
  rw [baseStart_eq_zero _ (basename_no_slash s)]
  rfl

/-- The container path components rebuilt by `run_pyhist_podman` recombine
to the image's filename: `image_name ++ ext = basename path`. -/
theorem stem_append_ext (s : String) :
    (splitext (basename s)).1 ++ (splitext s).2 = basename s := by
  rw [← splitext_basename_ext]
  show (⟨(basename s).toList.take (baseStart (basename s).toList) ++
          (splitextBase ((basename s).toList.drop (baseStart (basename s).toList))).1⟩ : String) ++
        ⟨(splitextBase ((basename s).toList.drop (baseStart (basename s).toList))).2⟩ = basename s
  rw [baseStart_eq_zero _ (basename_no_slash s)]
  apply String.ext
  show (List.take 0 (basename s).toList ++ (splitextBase ((basename s).toList.drop 0)).1) ++
        (splitextBase ((basename s).toList.drop 0)).2 = (basename s).toList
  simp [splitextBase_append]

theorem append_slash_inj (l1 r1 l2 r2 : List Char)
    (h1 : '/' ∉ l1) (h2 : '/' ∉ l2)
    (h : l1 ++ '/' :: r1 = l2 ++ '/' :: r2) : l1 = l2 ∧ r1 = r2 := by
  induction l1 generalizing l2 with
  | nil =>
    cases l2 with
    | nil => simpa using h
    | cons b bs =>
      simp only [List.nil_append, List.cons_append, List.cons.injEq] at h
      exact absurd (h.1 ▸ List.mem_cons_self b bs) h2
  | cons a as ih =>
    cases l2 with
    | nil =>
      simp only [List.nil_append, List.cons_append, List.cons.injEq] at h
      exact absurd (h.1.symm ▸ List.mem_cons_self a as) h1
    | cons b bs =>
      simp only [List.cons_append, List.cons.injEq] at h
      obtain ⟨hab, ht⟩ := h
      have hr := ih bs (fun hm => h1 (List.mem_cons_of_mem _ hm))
        (fun hm => h2 (List.mem_cons_of_mem _ hm)) ht
      exact ⟨by rw [hab, hr.1], hr.2⟩

theorem pathJoin_of_no_slash (n b : String) (hn : n ≠ "")
    (hns : '/' ∉ n.toList) (hbs : '/' ∉ b.toList) :
    pathJoin n b = n ++ "/" ++ b := by
  unfold pathJoin
  rw [if_neg, if_neg]
  · rintro (h | h)
    · exact hn h
    · obtain ⟨ys, hys⟩ := List.getLast?_eq_some_iff.mp h
      exact hns (hys ▸ List.mem_append_right ys (List.mem_singleton_self '/'))
  · intro h
    apply hbs
    cases hb : b.toList with
    | nil => rw [hb] at h; exact Option.noConfusion h
    | cons c cs =>
      rw [hb] at h
      simp only [List.head?_cons, Option.some.injEq] at h
      rw [← h]
      exact List.mem_cons_self c cs

theorem toList_append (a b : String) : (a ++ b).toList = a.toList ++ b.toList := rfl

/-! ### Serialization of archive writes: lemmas -/

theorem tag_mem_of_trace {β α : Type} (m : List (String × β)) (g : String → β → List α)
    (x : String × α) (hx : x ∈ m.flatMap fun kv => (g kv.1 kv.2).map fun e => (kv.1, e)) :
    x.1 ∈ m.map Prod.fst := by
  rw [List.mem_flatMap] at hx
  obtain ⟨kv, hkv, hmem⟩ := hx
  rw [List.mem_map] at hmem
  obtain ⟨e, _, rfl⟩ := hmem
  exact List.mem_map.mpr ⟨kv, hkv, rfl⟩

theorem serialized_flatMap {β α : Type} (m : List (String × β)) (g : String → β → List α)
    (hnd : (m.map Prod.fst).Nodup) :
    SerializedWrites (m.flatMap fun kv => (g kv.1 kv.2).map fun e => (kv.1, e)) := by
  induction m with
  | nil =>
    unfold SerializedWrites
    intro i j k a b c _ _ hi _ _ _
    simp at hi
  | cons kv m' ih =>
    rw [List.map_cons, List.nodup_cons] at hnd
    obtain ⟨hkv, hnd'⟩ := hnd
    unfold SerializedWrites
    intro i j k a b c hij hjk hi hj hk hac
    rw [List.flatMap_cons] at hi hj hk
    set B := (g kv.1 kv.2).map fun e => (kv.1, e) with hB
    set T := m'.flatMap fun p => (g p.1 p.2).map fun e => (p.1, e) with hT
    have tagB : ∀ y : String × α, y ∈ B → y.1 = kv.1 := by
      intro y hy
      rw [hB, List.mem_map] at hy
      obtain ⟨e, _, rfl⟩ := hy
      rfl
    by_cases hkB : k < B.length
    · have hiB : (B ++ T)[i]? = B[i]? := List.getElem?_append_left (by omega)
      have hjB : (B ++ T)[j]? = B[j]? := List.getElem?_append_left (by omega)
      rw [hiB] at hi
      rw [hjB] at hj
      rw [tagB b (List.getElem?_mem hj), tagB a (List.getElem?_mem hi)]
    · have hkT : (B ++ T)[k]? = T[k - B.length]? :=
        List.getElem?_append_right (by omega)
      rw [hkT] at hk
      have hcT : c.1 ∈ m'.map Prod.fst := tag_mem_of_trace m' g c (List.getElem?_mem hk)
      by_cases hiB : i < B.length
      · rw [List.getElem?_append_left hiB] at hi
        have : a.1 = kv.1 := tagB a (List.getElem?_mem hi)
        rw [this] at hac
        exact absurd (hac ▸ hcT) hkv
      · have hjT : (B ++ T)[j]? = T[j - B.length]? :=
          List.getElem?_append_right (by omega)
        have hiT : (B ++ T)[i]? = T[i - B.length]? :=
          List.getElem?_append_right (by omega)
        rw [hiT] at hi
        rw [hjT] at hj
        exact ih hnd' (i - B.length) (j - B.length) (k - B.length) a b c
          (by omega) (by omega) hi hj hk hac

/-! ### Unfolding lemmas for the script's functions -/

theorem run_pyhist_podman_ok (tool : String → Option String) (cwd p : String)
    (h : tool (abspath cwd p) = none) :
    run_pyhist_podman tool cwd p =
      (Except.ok (),
       ⟨[⟨.info, "Running Podman command: " ++ joinSpace (pyhistCmd cwd p)⟩,
         ⟨.info, "PyHIST Podman executed successfully for " ++ abspath cwd p⟩],
        [pyhistCmd cwd p], [], []⟩) := by
  unfold run_pyhist_podman
  dsimp only
  rw [h]

theorem run_pyhist_podman_fail (tool : String → Option String) (cwd p stderr : String)
    (h : tool (abspath cwd p) = some stderr) :
    run_pyhist_podman tool cwd p =
      (Except.error (.runtimeError ("PyHIST Podman processing failed: " ++ stderr)),
       ⟨[⟨.info, "Running Podman command: " ++ joinSpace (pyhistCmd cwd p)⟩,
         ⟨.error, "PyHIST Podman failed for " ++ abspath cwd p ++ ": " ++ stderr⟩],
        [pyhistCmd cwd p], [], []⟩) := by
  unfold run_pyhist_podman
  dsimp only
  rw [h]

theorem tileCheck_effects_clean (fs : FS) (root n : String) (m : List (String × String)) :
    (tileCheck fs root n m).2.podmanCmds = [] ∧
    (tileCheck fs root n m).2.mkdtemps = [] ∧
    (tileCheck fs root n m).2.rmtrees = [] := by
  unfold tileCheck
  dsimp only
  split
  · split
    · exact ⟨rfl, rfl, rfl⟩
    · exact ⟨rfl, rfl, rfl⟩
  · exact ⟨rfl, rfl, rfl⟩

theorem tileCheck_no_dir (fs : FS) (root n : String) (m : List (String × String))
    (hd : fs.dirExists (tileDirFor root n) = false) :
    tileCheck fs root n m =
      (m, ⟨[⟨.info, "Checking for tiles in: " ++ tileDirFor root n⟩,
            ⟨.warning, "Tile directory " ++ tileDirFor root n ++ " does not exist"⟩],
           [], [], []⟩) := by
  unfold tileCheck
  dsimp only
  rw [hd]
  rfl

theorem tileCheck_no_png (fs : FS) (root n : String) (m : List (String × String))
    (hd : fs.dirExists (tileDirFor root n) = true)
    (hfil : (fs.listdir (tileDirFor root n)).filter (fun fn => endsWithStr fn ".png") = []) :
    tileCheck fs root n m =
      (m, ⟨[⟨.info, "Checking for tiles in: " ++ tileDirFor root n⟩,
            ⟨.info, "Found 0 PNG files in " ++ tileDirFor root n⟩,
            ⟨.warning, "No PNG tiles found in " ++ tileDirFor root n⟩],
           [], [], []⟩) := by
  unfold tileCheck
  dsimp only
  rw [hd, hfil]
  rfl

/-- A rejected bundle entry only adds one informational skip record; the
loop result on the remaining entries is otherwise unchanged. -/
theorem processZipList_skip (env : Env) (td f : String) (rest : List String)
    (m : List (String × String)) (hacc : accepts f = false) :
    processZipList env td (f :: rest) m =
      ((processZipList env td rest m).1,
       Effects.append ⟨[⟨LogLevel.info, "Skipping non-image file: " ++ f⟩], [], [], []⟩
         (processZipList env td rest m).2) := by
  rw [processZipList, hacc]
  cases hp : processZipList env td rest m with
  | mk r e2 => simp

/-- The extension of an accepted input is never `.zip`. -/
theorem ext_ne_zip_of_valid (ext : String) (h : ext ∈ VALID_EXTENSIONS) :
    ext ≠ ".zip" := by
  intro hz
  rw [hz] at h
  exact absurd h (by decide)

/-- An accepted single-image input: `process_files` runs the tool from the
caller's working directory, checks the tile directory, keeps the scratch
temp dir as `temp_dir`, and removes nothing. -/
theorem process_files_single_ok (env : Env) (input : String)
    (hval : lowerStr (splitext input).2 ∈ VALID_EXTENSIONS)
    (htool : env.tool (abspath env.cwd input) = none) :
    process_files env input =
      (Except.ok (env.processDir,
        (tileCheck env.fs env.cwd (splitext (basename input)).1 []).1),
       (⟨[], [], [env.processDir], []⟩ : Effects).append
         (((run_pyhist_podman env.tool env.cwd input).2.append
           (tileCheck env.fs env.cwd (splitext (basename input)).1 []).2).append
            Effects.nil)) := by
  unfold process_files
  dsimp only
  rw [if_pos hval, run_pyhist_podman_ok env.tool env.cwd input htool,
    if_neg (ext_ne_zip_of_valid _ hval)]

theorem process_files_single_fail (env : Env) (input stderr : String)
    (hval : lowerStr (splitext input).2 ∈ VALID_EXTENSIONS)
    (htool : env.tool (abspath env.cwd input) = some stderr) :
    process_files env input =
      (Except.error (.runtimeError ("PyHIST Podman processing failed: " ++ stderr)),
       (⟨[], [], [env.processDir], []⟩ : Effects).append
         (((run_pyhist_podman env.tool env.cwd input).2).append Effects.nil)) := by
  unfold process_files
  dsimp only
  rw [if_pos hval, run_pyhist_podman_fail env.tool env.cwd input stderr htool,
    if_neg (ext_ne_zip_of_valid _ hval)]

theorem imageEntries_shape (walk : String → List (String × List String))
    (n d : String) (e : String × String)
    (he : e ∈ imageEntries walk n d) : e.1 = pathJoin n (basename e.2) := by
  unfold imageEntries at he
  rw [List.mem_flatMap] at he
  obtain ⟨rf, _, he2⟩ := he
  rw [List.mem_map] at he2
  obtain ⟨file, _, rfl⟩ := he2
  rfl

end Tiling

open Tiling

/-- C9: `create_output_zip` opens the output archive in write (truncating)
mode, so its contents do not depend on what was previously at the output
path; aggregating twice with the same map and path equals aggregating once,
and never accumulates entries of earlier runs. -/
theorem claim_C9_write_mode_idempotent
    (walk : String → List (String × List String))
    (m prev : List (String × String)) :
    create_output_zip walk m (create_output_zip walk m prev) =
      create_output_zip walk m prev ∧
    create_output_zip walk m prev = create_output_zip walk m [] :=
  ⟨rfl, rfl⟩

/-- C6 counterexample: with working directory `/w` and image `/data/img.png`,
the `-v` argument of the podman command mounts `/w` — the current working
directory — although the image's parent directory is `/data`. -/
theorem claim_C6_counterexample :
    (pyhistCmd "/w" "/data/img.png")[4]? = some "/w:/pyhist/images" ∧
    dirname (abspath "/w" "/data/img.png") = "/data" ∧
    ("/w:/pyhist/images" : String) ≠ "/data:/pyhist/images" := by
  refine ⟨by decide, by decide, by decide⟩

/-- C6 (amended): the host directory bind-mounted into the container is the
process's current working directory (not in general the image's parent), and
the in-container image path is the fixed mount point `/pyhist/images` joined
with the image's filename. -/
theorem claim_C6_mount_cwd (cwd p : String) :
    pyhistCmd cwd p =
      ["podman", "run", "--rm",
       "-v", cwd ++ ":/pyhist/images",
       "mmunozag/pyhist",
       "--patch-size", "512",
       "--content-threshold", "0.4",
       "--output-downsample", "4",
       "--borders", "0000",
       "--corners", "1010",
       "--percentage-bc", "1",
       "--k-const", "1000",
       "--minimum_segmentsize", "1000",
       "--save-patches",
       "--save-tilecrossed-image",
       "--info", "verbose",
       "--output", "images/",
       "/pyhist/images/" ++ basename (abspath cwd p)] := by
  show ["podman", "run", "--rm",
       "-v", cwd ++ ":/pyhist/images",
       "mmunozag/pyhist",
       "--patch-size", "512",
       "--content-threshold", "0.4",
       "--output-downsample", "4",
       "--borders", "0000",
       "--corners", "1010",
       "--percentage-bc", "1",
       "--k-const", "1000",
       "--minimum_segmentsize", "1000",
       "--save-patches",
       "--save-tilecrossed-image",
       "--info", "verbose",
       "--output", "images/",
       "/pyhist/images/" ++ (splitext (basename (abspath cwd p))).1 ++
         (splitext (abspath cwd p)).2] = _
  rw [String.append_assoc, stem_append_ext]

/-- C8: aggregation is one sequential pass over the tile map: the tagged
write trace into the shared archive is serialized — writes belonging to two
distinct images never interleave, whatever the map's order — and untagging
the trace yields exactly the archive `create_output_zip` produces. -/
theorem claim_C8_serialized (walk : String → List (String × List String))
    (m : List (String × String)) (hnd : (m.map Prod.fst).Nodup) :
    SerializedWrites (archiveWriteTrace walk m) ∧
    (archiveWriteTrace walk m).map Prod.snd = create_output_zip walk m [] := by
  constructor
  · exact serialized_flatMap m (fun n d => imageEntries walk n d) hnd
  · show (archiveWriteTrace walk m).map Prod.snd =
      m.flatMap fun kv => imageEntries walk kv.1 kv.2
    unfold archiveWriteTrace
    rw [List.map_flatMap]
    simp

theorem claim_C8_serialized_witness :
    SerializedWrites (archiveWriteTrace walkAgg mapAgg) ∧
    (archiveWriteTrace walkAgg mapAgg).map Prod.snd =
      create_output_zip walkAgg mapAgg [] :=
  claim_C8_serialized walkAgg mapAgg (by decide)

/-- C1 counterexample: image `slideB` has a located tile file `tileX.png`
with no digits in its name.  The claim requires the archive entry
`slideB/slideB_0000.png` (the spec's parsed-index naming); the code instead
writes the entry `slideB/tileX.png`, keeping the tile's original filename,
and no entry of the claimed name exists. -/
theorem claim_C1_counterexample :
    (create_output_zip walkAgg [("slideB", "/o/b_tiles")] []).map Prod.fst =
      ["slideB/tileX.png", "slideB/slide_001.png"] ∧
    specArcname "slideB" "tileX.png" = "slideB/slideB_0000.png" ∧
    specArcname "slideB" "tileX.png" ∉
      (create_output_zip walkAgg [("slideB", "/o/b_tiles")] []).map Prod.fst := by
  refine ⟨by decide, by decide, by decide⟩

/-- C1 (amended): the aggregator writes exactly one entry per discovered
`.png` tile file; each entry lives at `<logical_name>/<tile basename>` —
the tile's original filename, no index parsed, no sentinel — and entries of
two images with distinct, nonempty, slash-free logical names never
collide. -/
theorem claim_C1_entries (walk : String → List (String × List String))
    (m : List (String × String)) :
    ((create_output_zip walk m []).length =
      (m.map fun kv => ((walk kv.2).map fun rf =>
        (rf.2.filter fun f => endsWithStr f ".png").length).sum).sum) ∧
    (∀ e ∈ create_output_zip walk m [], ∃ kv ∈ m,
      e ∈ imageEntries walk kv.1 kv.2 ∧ e.1 = pathJoin kv.1 (basename e.2)) ∧
    (∀ kv ∈ m, ∀ kv' ∈ m, kv.1 ≠ kv'.1 → kv.1 ≠ "" → kv'.1 ≠ "" →
      '/' ∉ kv.1.toList → '/' ∉ kv'.1.toList →
      ∀ e ∈ imageEntries walk kv.1 kv.2, ∀ e' ∈ imageEntries walk kv'.1 kv'.2,
        e.1 ≠ e'.1) := by
  refine ⟨?_, ?_, ?_⟩
  · show (m.flatMap fun kv => imageEntries walk kv.1 kv.2).length = _
    rw [List.length_flatMap]
    apply congrArg List.sum
    apply List.map_congr_left
    intro kv _
    show (imageEntries walk kv.1 kv.2).length = _
    unfold imageEntries
    rw [List.length_flatMap]
    apply congrArg List.sum
    apply List.map_congr_left
    intro rf _
    show ((rf.2.filter fun f => endsWithStr f ".png").map _).length = _
    rw [List.length_map]
  · intro e he
    have he2 : e ∈ m.flatMap fun kv => imageEntries walk kv.1 kv.2 := he
    rw [List.mem_flatMap] at he2
    obtain ⟨kv, hkv, hee⟩ := he2
    exact ⟨kv, hkv, hee, imageEntries_shape walk kv.1 kv.2 e hee⟩
  · intro kv hkv kv' hkv' hne hn1 hn2 hs1 hs2 e he e' he'
    have h1 := imageEntries_shape walk kv.1 kv.2 e he
    have h2 := imageEntries_shape walk kv'.1 kv'.2 e' he'
    rw [h1, h2, pathJoin_of_no_slash _ _ hn1 hs1 (basename_no_slash _),
        pathJoin_of_no_slash _ _ hn2 hs2 (basename_no_slash _)]
    intro heq
    have hdata := congrArg String.toList heq
    rw [toList_append, toList_append, toList_append, toList_append,
        List.append_assoc, List.append_assoc] at hdata
    have hinj := append_slash_inj kv.1.toList (basename e.2).toList
      kv'.1.toList (basename e'.2).toList hs1 hs2 (by simpa using hdata)
    exact hne (String.ext hinj.1)

theorem claim_C1_entries_witness :
    (create_output_zip walkAgg mapAgg []).length = 3 ∧
    (∃ kv ∈ mapAgg,
      ("slideA/slide_001.png", "/o/a_tiles/slide_001.png") ∈ imageEntries walkAgg kv.1 kv.2 ∧
      ("slideA/slide_001.png" : String) =
        pathJoin kv.1 (basename ("/o/a_tiles/slide_001.png" : String))) ∧
    ("slideA/slide_001.png" : String) ≠ "slideB/slide_001.png" := by
  refine ⟨?_, ?_, ?_⟩
  · rw [(claim_C1_entries walkAgg mapAgg).1]
    decide
  · exact (claim_C1_entries walkAgg mapAgg).2.1
      ("slideA/slide_001.png", "/o/a_tiles/slide_001.png") (by decide)
  · exact (claim_C1_entries walkAgg mapAgg).2.2
      ("slideA", "/o/a_tiles") (by decide) ("slideB", "/o/b_tiles") (by decide)
      (by decide) (by decide) (by decide) (by decide) (by decide)
      ("slideA/slide_001.png", "/o/a_tiles/slide_001.png") (by decide)
      ("slideB/slide_001.png", "/o/b_tiles/slide_001.png") (by decide)

/-- C3: acceptance of a bundle entry is decided solely by its lower-cased
`splitext` extension against the fixed allow-list; a rejected entry creates
no task and no tool invocation — the loop only appends one informational
skip record and continues identically on the rest of the bundle. -/
theorem claim_C3_reject_skips (env : Env) (td f : String) (rest : List String)
    (m : List (String × String))
    (h : lowerStr (splitext f).2 ∉ VALID_EXTENSIONS) :
    processZipList env td (f :: rest) m =
      ((processZipList env td rest m).1,
       Effects.append ⟨[⟨LogLevel.info, "Skipping non-image file: " ++ f⟩], [], [], []⟩
         (processZipList env td rest m).2) := by
  apply processZipList_skip
  unfold accepts
  simpa using h

theorem claim_C3_reject_skips_witness :
    processZipList envW "/tz" ["/tz/notes.txt"] [] =
      ((processZipList envW "/tz" [] []).1,
       Effects.append ⟨[⟨LogLevel.info, "Skipping non-image file: /tz/notes.txt"⟩], [], [], []⟩
         (processZipList envW "/tz" [] []).2) :=
  claim_C3_reject_skips envW "/tz" "/tz/notes.txt" [] [] (by decide)

/-- C2 counterexample: the bundle `envC2` holds two valid images and the
tool fails on the first with stderr `boom`.  The run does not continue with
the second image: `process_files` propagates the `RuntimeError` and only
one podman invocation ever happens. -/
theorem claim_C2_counterexample :
    envC2.zipNamelist = some ["a.png", "b.png"] ∧
    accepts "/tz/b.png" = true ∧
    (process_files envC2 "in.zip").1 =
      Except.error (PyErr.runtimeError "PyHIST Podman processing failed: boom") ∧
    (process_files envC2 "in.zip").2.podmanCmds.length = 1 :=
  ⟨rfl, by decide, rfl, rfl⟩

/-- C2 (amended): a non-zero tool exit inside the bundle loop is logged as
an error carrying the captured stderr and raised as `RuntimeError`; the
loop has no per-task handler, so the exception aborts the whole batch — no
later bundle entry is invoked and the error propagates to the caller. -/
theorem claim_C2_abort (env : Env) (td f : String) (rest : List String)
    (m : List (String × String)) (stderr : String)
    (hacc : accepts f = true)
    (htool : env.tool (abspath td f) = some stderr) :
    processZipList env td (f :: rest) m =
      (Except.error (PyErr.runtimeError ("PyHIST Podman processing failed: " ++ stderr)),
       ⟨[⟨LogLevel.info, "Running Podman command: " ++ joinSpace (pyhistCmd td f)⟩,
         ⟨LogLevel.error, "PyHIST Podman failed for " ++ abspath td f ++ ": " ++ stderr⟩],
        [pyhistCmd td f], [], []⟩) := by
  rw [processZipList, hacc, run_pyhist_podman_fail env.tool td f stderr htool]
  rfl

theorem claim_C2_abort_witness :
    (processZipList envC2 "/tz" ["/tz/a.png", "/tz/b.png"] []).1 =
      Except.error (PyErr.runtimeError "PyHIST Podman processing failed: boom") := by
  rw [claim_C2_abort envC2 "/tz" "/tz/a.png" ["/tz/b.png"] [] "boom" (by decide) (by decide)]
  rfl

/-- C4: tiles are searched exactly at the deterministic path
`<root>/<image_name>/<image_name>_tiles` (the path named by the logged
check record); when that directory is missing or holds no `.png` file the
outcome is a logged warning — never an error-level record — the image is
left out of the tile map, and the bundle loop continues on the remaining
entries with an unchanged map. -/
theorem claim_C4_missing_tiles (env : Env) :
    (∀ root n m,
      (env.fs.dirExists (tileDirFor root n) = false ∨
        (env.fs.listdir (tileDirFor root n)).filter (fun fn => endsWithStr fn ".png") = []) →
      (tileCheck env.fs root n m).1 = m ∧
      (⟨LogLevel.info, "Checking for tiles in: " ++ tileDirFor root n⟩ : LogEvent) ∈
        (tileCheck env.fs root n m).2.log ∧
      (∃ w, (⟨LogLevel.warning, w⟩ : LogEvent) ∈ (tileCheck env.fs root n m).2.log) ∧
      (∀ ev ∈ (tileCheck env.fs root n m).2.log, ev.level ≠ LogLevel.error)) ∧
    (∀ td f rest m, accepts f = true →
      env.tool (abspath td f) = none →
      (tileCheck env.fs td (splitext (basename f)).1 m).1 = m →
      processZipList env td (f :: rest) m =
        ((processZipList env td rest m).1,
         (run_pyhist_podman env.tool td f).2.append
           ((tileCheck env.fs td (splitext (basename f)).1 m).2.append
             (processZipList env td rest m).2))) := by
  constructor
  · intro root n m hmiss
    by_cases hd : env.fs.dirExists (tileDirFor root n)
    · have hfil : (env.fs.listdir (tileDirFor root n)).filter
          (fun fn => endsWithStr fn ".png") = [] := by
        rcases hmiss with hmiss | hmiss
        · rw [hd] at hmiss; exact absurd hmiss (by decide)
        · exact hmiss
      rw [tileCheck_no_png env.fs root n m hd hfil]
      refine ⟨rfl, by simp, ⟨"No PNG tiles found in " ++ tileDirFor root n, by simp⟩, ?_⟩
      intro ev hev
      simp only [List.mem_cons, List.not_mem_nil, or_false] at hev
      rcases hev with rfl | rfl | rfl
      · exact fun h => LogLevel.noConfusion h
      · exact fun h => LogLevel.noConfusion h
      · exact fun h => LogLevel.noConfusion h
    · rw [tileCheck_no_dir env.fs root n m (by simpa using hd)]
      refine ⟨rfl, by simp, ⟨"Tile directory " ++ tileDirFor root n ++ " does not exist", by simp⟩, ?_⟩
      intro ev hev
      simp only [List.mem_cons, List.not_mem_nil, or_false] at hev
      rcases hev with rfl | rfl
      · exact fun h => LogLevel.noConfusion h
      · exact fun h => LogLevel.noConfusion h
  · intro td f rest m hacc htool hkeep
    rw [processZipList, hacc, run_pyhist_podman_ok env.tool td f htool]
    cases htc : tileCheck env.fs td (splitext (basename f)).1 m with
    | mk m2 e2 =>
      have hm2 : m2 = m := by
        rw [htc] at hkeep
        exact hkeep
      subst hm2
      dsimp only
      cases hpz : processZipList env td rest m2 with
      | mk r e3 => rfl

theorem claim_C4_missing_tiles_witness :
    (tileCheck envW.fs "/tz" "zz" []).1 = [] ∧
    processZipList envW "/tz" ["/tz/zz.png"] [] =
      ((processZipList envW "/tz" [] []).1,
       (run_pyhist_podman envW.tool "/tz" "/tz/zz.png").2.append
         ((tileCheck envW.fs "/tz" (splitext (basename "/tz/zz.png")).1 []).2.append
           (processZipList envW "/tz" [] []).2)) := by
  have h := claim_C4_missing_tiles envW
  refine ⟨(h.1 "/tz" "zz" [] (Or.inl (by decide))).1, ?_⟩
  exact h.2 "/tz" "/tz/zz.png" [] [] (by decide) (by decide)
    ((h.1 "/tz" (splitext (basename "/tz/zz.png")).1 [] (Or.inl (by decide))).1)

/-- C5: the claim fails on the code, evaluated at a bundle input.  On the
fully successful bundle run `envW` the script creates two temporary
directories — the initial `process_` scratch dir and the extraction dir —
but removes only the extraction dir, so the scratch dir survives the whole
run (`main` removes nothing further for a bundle).  On a corrupt bundle
(`envBad`) the extraction dir is created and only the scratch dir is
removed.  Either exit path therefore leaks one per-run temp directory. -/
theorem claim_C5_leak :
    ((process_files envW "in.zip").2.mkdtemps = ["/tmp/process_w", "/tz"] ∧
     (process_files envW "in.zip").2.rmtrees = ["/tz"] ∧
     (main envW "in.zip" []).2.rmtrees = ["/tz"] ∧
     "/tmp/process_w" ∉ (main envW "in.zip" []).2.rmtrees) ∧
    ((process_files envBad "in.zip").2.mkdtemps = ["/tmp/process_w", "/tz"] ∧
     (process_files envBad "in.zip").2.rmtrees = ["/tmp/process_w"] ∧
     "/tz" ∉ (process_files envBad "in.zip").2.rmtrees) :=
  ⟨⟨rfl, rfl, rfl, by decide⟩, rfl, rfl, by decide⟩

/-- C7: an input error is fatal exactly when it affects the sole input — a
single input whose extension is neither accepted nor `.zip` raises
`ValueError`, a bundle that is not a valid ZIP raises
`RuntimeError "Invalid ZIP file."`, and both propagate through `main`;
whereas an unsupported entry inside a bundle is only skipped with an
informational log record and changes nothing else. -/
theorem claim_C7_fatal_only_sole_input (env : Env) (input : String)
    (prev : List (String × String)) :
    (lowerStr (splitext input).2 ∉ VALID_EXTENSIONS →
      lowerStr (splitext input).2 ≠ ".zip" →
      (process_files env input).1 =
        Except.error (PyErr.valueError ("Unsupported input file type: " ++
          lowerStr (splitext input).2 ++ ". Expected .zip or a valid image extension."))) ∧
    (lowerStr (splitext input).2 = ".zip" → env.zipNamelist = none →
      (process_files env input).1 = Except.error (PyErr.runtimeError "Invalid ZIP file.")) ∧
    (∀ e, env.pullErr = none → (process_files env input).1 = Except.error e →
      (main env input prev).1 = Except.error e) ∧
    (∀ td fp rest m, lowerStr (splitext fp).2 ∉ VALID_EXTENSIONS →
      (processZipList env td (fp :: rest) m).1 = (processZipList env td rest m).1 ∧
      (⟨LogLevel.info, "Skipping non-image file: " ++ fp⟩ : LogEvent) ∈
        (processZipList env td (fp :: rest) m).2.log) := by
  refine ⟨?_, ?_, ?_, ?_⟩
  · intro h1 h2
    unfold process_files
    dsimp only
    rw [if_neg h1, if_neg h2]
  · intro h1 h2
    unfold process_files
    dsimp only
    rw [h1, if_neg (show ¬((".zip" : String) ∈ VALID_EXTENSIONS) by decide), if_pos rfl]
    unfold extract_zip
    rw [h2]
  · intro e hpull hpf
    unfold main
    rw [hpull]
    dsimp only [pull_podman_image]
    cases hp : process_files env input with
    | mk r eff =>
      rw [hp] at hpf
      dsimp only at hpf
      subst hpf
      rfl
  · intro td fp rest m h1
    have hs := processZipList_skip env td fp rest m (by unfold accepts; simpa using h1)
    rw [hs]
    exact ⟨rfl, by simp [Effects.append]⟩

theorem claim_C7_fatal_only_sole_input_witness :
    (process_files envW "in.tar").1 =
      Except.error (PyErr.valueError
        "Unsupported input file type: .tar. Expected .zip or a valid image extension.") ∧
    (process_files envBad "in.zip").1 =
      Except.error (PyErr.runtimeError "Invalid ZIP file.") ∧
    (main envBad "in.zip" []).1 =
      Except.error (PyErr.runtimeError "Invalid ZIP file.") ∧
    (processZipList envW "/tz" ["/tz/notes.txt"] []).1 =
      (processZipList envW "/tz" [] []).1 := by
  have h1 := claim_C7_fatal_only_sole_input envW "in.tar" []
  have h2 := claim_C7_fatal_only_sole_input envBad "in.zip" []
  refine ⟨h1.1 (by decide) (by decide), h2.2.1 (by decide) rfl, ?_, ?_⟩
  · exact h2.2.2.1 _ rfl (h2.2.1 (by decide) rfl)
  · exact (h1.2.2.2 "/tz" "/tz/notes.txt" [] [] (by decide)).1

/-- C10: for a single accepted image, `process_files` removes nothing; if
archive creation succeeds, `main` then removes exactly the tool's output
tree `<cwd>/<image_name>` followed by the scratch temp dir; if opening the
archive raises, `main` removes only the scratch temp dir — the output tree
deletion does not happen — and the error propagates. -/
theorem claim_C10_output_tree (env : Env) (input : String)
    (prev : List (String × String)) (td : String)
    (m : List (String × String)) (eff : Effects)
    (hval : lowerStr (splitext input).2 ∈ VALID_EXTENSIONS)
    (hpull : env.pullErr = none)
    (hpf : process_files env input = (Except.ok (td, m), eff)) :
    eff.rmtrees = [] ∧
    (env.archiveWriteOk = true →
      (main env input prev).2.rmtrees =
        [pathJoin env.cwd (splitext (basename input)).1, td] ∧
      (main env input prev).1 = Except.ok (create_output_zip env.fs.walk m prev)) ∧
    (env.archiveWriteOk = false →
      (main env input prev).2.rmtrees = [td] ∧
      (main env input prev).1 =
        Except.error (PyErr.osError "cannot open output archive for writing")) := by
  cases htool : env.tool (abspath env.cwd input) with
  | some stderr =>
    rw [process_files_single_fail env input stderr hval htool] at hpf
    exact absurd (congrArg Prod.fst hpf) (by simp)
  | none =>
    have hpf2 := hpf
    rw [process_files_single_ok env input hval htool,
      run_pyhist_podman_ok env.tool env.cwd input htool] at hpf2
    have heff : eff.rmtrees = [] := by
      have h2 := congrArg Prod.snd hpf2
      dsimp only at h2
      rw [← h2]
      simp [Effects.append, Effects.nil, (tileCheck_effects_clean env.fs env.cwd
        (splitext (basename input)).1 []).2.2]
    refine ⟨heff, ?_, ?_⟩
    · intro harch
      unfold main
      rw [hpull]
      dsimp only [pull_podman_image]
      rw [hpf, harch]
      dsimp only
      simp only [if_pos hval]
      constructor
      · simp [Effects.append, heff]
      · rfl
    · intro harch
      unfold main
      rw [hpull]
      dsimp only [pull_podman_image]
      rw [hpf, harch]
      dsimp only
      simp only [if_pos hval]
      constructor
      · simp [Effects.append, heff]
      · rfl

theorem claim_C10_output_tree_witness :
    (main envS "img.png" []).2.rmtrees = ["/w/img", "/tmp/process_w"] ∧
    (main envSFail "img.png" []).2.rmtrees = ["/tmp/process_w"] ∧
    (main envSFail "img.png" []).1 =
      Except.error (PyErr.osError "cannot open output archive for writing") := by
  have h1a : (process_files envS "img.png").1 =
      Except.ok ("/tmp/process_w", [("img", "/w/img/img_tiles")]) := by rfl
  have hpf : process_files envS "img.png" =
      (Except.ok ("/tmp/process_w", [("img", "/w/img/img_tiles")]),
       (process_files envS "img.png").2) := by
    rw [← h1a]
  have h2a : (process_files envSFail "img.png").1 =
      Except.ok ("/tmp/process_w", [("img", "/w/img/img_tiles")]) := by rfl
  have hpf2 : process_files envSFail "img.png" =
      (Except.ok ("/tmp/process_w", [("img", "/w/img/img_tiles")]),
       (process_files envSFail "img.png").2) := by
    rw [← h2a]
  have h1 := claim_C10_output_tree envS "img.png" [] "/tmp/process_w"
    [("img", "/w/img/img_tiles")] ((process_files envS "img.png").2)
    (by decide) rfl hpf
  have h2 := claim_C10_output_tree envSFail "img.png" [] "/tmp/process_w"
    [("img", "/w/img/img_tiles")] ((process_files envSFail "img.png").2)
    (by decide) rfl hpf2
  refine ⟨?_, ?_, (h2.2.2 rfl).2⟩
  · rw [(h1.2.1 rfl).1]
    decide
  · exact (h2.2.2 rfl).1
